import Mathlib

/-!
Shallow embedding of `supermemo2-rs` (`src/lib.rs`), an implementation of the
SM-2 spaced-repetition algorithm. Rust's `f64` values are modelled as exact
rationals (`ℚ`); `usize` is modelled as `ℕ`. The `as usize` cast of the
ceiling in `Item::interval` is modelled by `Int.toNat`, matching Rust's
saturating float-to-integer cast (negative values become 0).
-/

namespace SM2

/-- Embedding of `enum Quality` (src/lib.rs lines 12-19): the quality of an
answer from 0 to 5. -/
inductive Quality
  | zero
  | one
  | two
  | three
  | four
  | five
deriving DecidableEq, Repr

/-- Embedding of the `match` tables inside `impl Ord for Quality`
(src/lib.rs lines 21-43): the integer each variant is mapped to before the
underlying `usize` comparison. -/
def Quality.toRank : Quality → Nat
  | .zero => 0
  | .one => 1
  | .two => 2
  | .three => 3
  | .four => 4
  | .five => 5

/-- Embedding of `Ord::cmp` for `Quality` (src/lib.rs lines 21-43): compare
the two ranks as natural numbers. `PartialOrd` wraps this in `Some`, so
`q1 < q2` in the source holds exactly when this returns `lt`. -/
def Quality.cmp (a b : Quality) : Ordering :=
  compare a.toRank b.toRank

/-- Embedding of `impl From<&Quality> for f64` (src/lib.rs lines 59-70). -/
def Quality.toF : Quality → ℚ
  | .zero => 0
  | .one => 1
  | .two => 2
  | .three => 3
  | .four => 4
  | .five => 5

/-- Embedding of `enum Error` (src/lib.rs lines 72-77): the single error
variant carries the offending quality value. -/
inductive Error
  | qualityAboveFiveError (q : Nat)
deriving DecidableEq, Repr

/-- Embedding of `Quality::from` (src/lib.rs lines 93-103): build a `Quality`
from a `usize`, or return the error carrying the given value. (`from` is a
Lean keyword, hence the name `fromNat`.) -/
def Quality.fromNat : Nat → Except Error Quality
  | 0 => .ok .zero
  | 1 => .ok .one
  | 2 => .ok .two
  | 3 => .ok .three
  | 4 => .ok .four
  | 5 => .ok .five
  | q => .error (.qualityAboveFiveError q)

/-- Embedding of `struct Item` (src/lib.rs lines 107-112): repetition count
and easiness factor. -/
structure Item where
  repetitions : Nat
  efactor : ℚ
deriving DecidableEq, Repr

/-- Embedding of `Item::new` (src/lib.rs lines 126-131): no reviews and the
default E-factor of 2.5. -/
def Item.new : Item :=
  { repetitions := 0, efactor := 2.5 }

/-- Embedding of `Item::from` (src/lib.rs lines 135-140): restore an `Item`
from a previously computed repetition count and E-factor, stored verbatim.
(`from` is a Lean keyword, hence the name `fromParts`.) -/
def Item.fromParts (repetitions : Nat) (efactor : ℚ) : Item :=
  { repetitions := repetitions, efactor := efactor }

/-- Embedding of `Item::interval` (src/lib.rs lines 145-152). The source
matches on `repetitions`; in the default arm it computes
`(6.0 * efactor.powi(repetitions as i32 - 2)).ceil() as usize`, where the
exponent is at least 1 and the `as usize` cast saturates negative results
to 0, hence `Int.toNat`. -/
def Item.interval (item : Item) : Nat :=
  if item.repetitions = 0 then 0
  else if item.repetitions = 1 then 1
  else if item.repetitions = 2 then 6
  else (⌈(6 : ℚ) * item.efactor ^ (item.repetitions - 2)⌉).toNat

/-- Embedding of `Item::new_efactor` (src/lib.rs lines 154-163): floor the
incoming E-factor at 1.3, then apply the SM-2 polynomial; the result is
stored without re-flooring. -/
def Item.new_efactor (efactor : ℚ) (quality : Quality) : ℚ :=
  let q : ℚ := quality.toF
  let ef : ℚ := if efactor < 1.3 then 1.3 else efactor
  ef + (0.1 - (5 - q) * (0.08 + (5 - q) * 0.02))

/-- Embedding of `Item::new_repetitions` (src/lib.rs lines 165-171):
`quality < &Quality::Three` resets the count to 1, otherwise it is
incremented. The source's `<` goes through `PartialOrd`/`Ord`, i.e. it holds
iff `cmp` returns `lt`. -/
def Item.new_repetitions (repetitions : Nat) (quality : Quality) : Nat :=
  if quality.cmp Quality.three = Ordering.lt then 1 else repetitions + 1

/-- Embedding of `Item::answer` (src/lib.rs lines 174-179): the immutable
update, building a new `Item` from both sub-computations on the pre-state. -/
def Item.answer (item : Item) (quality : Quality) : Item :=
  { repetitions := Item.new_repetitions item.repetitions quality
    efactor := Item.new_efactor item.efactor quality }

/-- Embedding of `Item::answer_mut` (src/lib.rs lines 182-185): the in-place
update as explicit state passing; the `repetitions` field is overwritten
first, then the `efactor` field is overwritten using the (unchanged)
`efactor` of the intermediate state. -/
def Item.answer_mut (item : Item) (quality : Quality) : Item :=
  let item1 := { item with repetitions := Item.new_repetitions item.repetitions quality }
  { item1 with efactor := Item.new_efactor item1.efactor quality }

/-- Fuel-indexed embedding of `PartialEq::eq` for `Quality`
(src/lib.rs lines 53-57). The body `self == other` re-enters the very same
`PartialEq` impl through the reference blanket impl, so each call step makes
one recursive call with the same two arguments and there is no base case;
the fuel bounds the number of call steps a run may take, and exhausting it
yields `none` (no result produced within that many steps). -/
def Quality.eqFuel : Nat → Quality → Quality → Option Bool
  | 0, _, _ => none
  | n + 1, a, b => Quality.eqFuel n a b

/-- Modelled from the spec: the public accessor `repetitions()` of the
consolidated design (spec section 6), returning the stored repetition count.
No accessor method appears under `src/`, only the private field of
`struct Item`. -/
def Item.repetitionsAcc (item : Item) : Nat :=
  item.repetitions

/-- Modelled from the spec: the public accessor `easinessFactor()` of the
consolidated design (spec section 6), returning the stored easiness factor.
No accessor method appears under `src/`, only the private field of
`struct Item`. -/
def Item.easinessFactor (item : Item) : ℚ :=
  item.efactor

/-- Evaluation lemma shared by the interval computations: the ceiling of a
concrete rational, phrased so `norm_num` can discharge both bounds. -/
theorem ceil_eq_of_bounds (x : ℚ) (n : ℤ) (h1 : (n : ℚ) - 1 < x) (h2 : x ≤ n) :
    ⌈x⌉ = n := by
  rw [Int.ceil_eq_iff]
  exact ⟨h1, h2⟩

/-- Evaluation lemma for `Item.new_efactor` when the incoming E-factor is
already at least 1.3, so the floor branch is not taken. -/
theorem new_efactor_eval (ef : ℚ) (q : Quality) (h : ¬ ef < 1.3) :
    Item.new_efactor ef q
      = ef + (0.1 - (5 - q.toF) * (0.08 + (5 - q.toF) * 0.02)) := by
  simp only [Item.new_efactor]
  rw [if_neg h]

/-- C1: for every item and every quality of value 0, 1 or 2, both `answer`
and `answer_mut` set the repetition count to exactly 1, whatever it was, and
the interval of the resulting item is 1 day. -/
theorem lapse_resets_repetitions (item : Item) (q : Quality) (h : q.toRank ≤ 2) :
    (item.answer q).repetitions = 1 ∧ (item.answer_mut q).repetitions = 1 ∧
    (item.answer q).interval = 1 := by
  have hcmp : q.cmp Quality.three = Ordering.lt := by
    cases q
    · rfl
    · rfl
    · rfl
    · exact absurd h (by decide)
    · exact absurd h (by decide)
    · exact absurd h (by decide)
  refine ⟨?_, ?_, ?_⟩ <;>
    simp [Item.answer, Item.answer_mut, Item.new_repetitions, Item.interval, hcmp]

/-- Witness for C1 at a concrete item with 7 prior repetitions and quality 1. -/
theorem lapse_resets_repetitions_witness :
    ((Item.fromParts 7 2.5).answer Quality.one).repetitions = 1 ∧
    ((Item.fromParts 7 2.5).answer_mut Quality.one).repetitions = 1 ∧
    ((Item.fromParts 7 2.5).answer Quality.one).interval = 1 :=
  lapse_resets_repetitions (Item.fromParts 7 2.5) Quality.one (by decide)

/-- C2: for every item and every quality of value 3, 4 or 5, both `answer`
and `answer_mut` set the repetition count to exactly the old count plus 1. -/
theorem success_advances_repetitions (item : Item) (q : Quality) (h : 3 ≤ q.toRank) :
    (item.answer q).repetitions = item.repetitions + 1 ∧
    (item.answer_mut q).repetitions = item.repetitions + 1 := by
  have hcmp : ¬ q.cmp Quality.three = Ordering.lt := by
    cases q
    · exact absurd h (by decide)
    · exact absurd h (by decide)
    · exact absurd h (by decide)
    · decide
    · decide
    · decide
  constructor <;>
    simp [Item.answer, Item.answer_mut, Item.new_repetitions, hcmp]

/-- Witness for C2 at a concrete item with 2 prior repetitions and quality 4. -/
theorem success_advances_repetitions_witness :
    ((Item.fromParts 2 2.5).answer Quality.four).repetitions = (Item.fromParts 2 2.5).repetitions + 1 ∧
    ((Item.fromParts 2 2.5).answer_mut Quality.four).repetitions = (Item.fromParts 2 2.5).repetitions + 1 :=
  success_advances_repetitions (Item.fromParts 2 2.5) Quality.four (by decide)

/-- C3: the review operation computes the new easiness factor as
`max(storedEF, 1.3) + (0.1 - (5-q)*(0.08 + (5-q)*0.02))` — the 1.3 floor is
applied to the value read and the result is stored without re-flooring, so
the stored result may itself be below 1.3; in particular stored EF 0.5 with
quality 5 yields 1.4, and `Item::from(3, 2.4)` with quality 5 yields
repetitions 4 and easiness factor exactly 2.5. -/
theorem efactor_update_formula :
    (∀ (item : Item) (q : Quality),
      (item.answer q).efactor
        = max item.efactor 1.3 + (0.1 - (5 - q.toF) * (0.08 + (5 - q.toF) * 0.02))) ∧
    ((Item.fromParts 0 0.5).answer Quality.five).efactor = 1.4 ∧
    ((Item.fromParts 3 2.4).answer Quality.five).repetitions = 4 ∧
    ((Item.fromParts 3 2.4).answer Quality.five).efactor = 2.5 ∧
    ((Item.fromParts 1 1.3).answer Quality.zero).efactor < 1.3 := by
  have hgen : ∀ (item : Item) (q : Quality),
      (item.answer q).efactor
        = max item.efactor 1.3 + (0.1 - (5 - q.toF) * (0.08 + (5 - q.toF) * 0.02)) := by
    intro item q
    simp only [Item.answer, Item.new_efactor]
    congr 1
    rcases lt_or_le item.efactor 1.3 with hlt | hle
    · rw [if_pos hlt, max_eq_right hlt.le]
    · rw [if_neg (not_lt.mpr hle), max_eq_left hle]
  refine ⟨hgen, ?_, ?_, ?_, ?_⟩
  · rw [hgen]
    simp only [Item.fromParts, Quality.toF]
    norm_num
  · simp [Item.answer, Item.fromParts, Item.new_repetitions]
    decide
  · rw [hgen]
    simp only [Item.fromParts, Quality.toF]
    norm_num
  · rw [hgen]
    simp only [Item.fromParts, Quality.toF]
    norm_num

/-- Counterexample for C4 as stated: at `Item::from(3, -1.0)` the code
returns 0, while the claim's formula `ceil(6.0 * EF^(repetitions-2))` is
-6; the `as usize` cast saturates the negative ceiling to 0. -/
theorem interval_ceiling_counterexample :
    ¬ (((Item.fromParts 3 (-1)).interval : ℤ)
        = ⌈(6 : ℚ) * (Item.fromParts 3 (-1)).efactor ^ ((Item.fromParts 3 (-1)).repetitions - 2)⌉) := by
  have hceil : ⌈(6 : ℚ) * (-1 : ℚ) ^ ((3 : ℕ) - 2)⌉ = -6 := by
    apply ceil_eq_of_bounds <;> norm_num
  have hstep : (Item.fromParts 3 (-1)).interval
      = (⌈(6 : ℚ) * (-1 : ℚ) ^ ((3 : ℕ) - 2)⌉).toNat := rfl
  have hef : (Item.fromParts 3 (-1)).efactor = (-1 : ℚ) := rfl
  have hrep : (Item.fromParts 3 (-1)).repetitions = (3 : ℕ) := rfl
  rw [hstep, hef, hrep, hceil]
  decide

/-- C4 (amended): `interval()` returns 0, 1, 6 at repetition counts 0, 1, 2;
for repetitions ≥ 3 it returns `ceil(6.0 * EF^(repetitions-2))` saturated at
0 from below (the `as usize` cast clamps negative ceilings), which equals
the ceiling itself whenever the stored EF is nonnegative; the stored EF is
used verbatim (no 1.3 floor), and `Item::from(5, 3.9).interval() = 356`. -/
theorem interval_formula :
    (∀ item : Item,
      (item.repetitions = 0 → item.interval = 0) ∧
      (item.repetitions = 1 → item.interval = 1) ∧
      (item.repetitions = 2 → item.interval = 6) ∧
      (3 ≤ item.repetitions →
        item.interval = (⌈(6 : ℚ) * item.efactor ^ (item.repetitions - 2)⌉).toNat) ∧
      (3 ≤ item.repetitions → 0 ≤ item.efactor →
        (item.interval : ℤ) = ⌈(6 : ℚ) * item.efactor ^ (item.repetitions - 2)⌉)) ∧
    (Item.fromParts 5 3.9).interval = 356 := by
  have harm : ∀ item : Item, 3 ≤ item.repetitions →
      item.interval = (⌈(6 : ℚ) * item.efactor ^ (item.repetitions - 2)⌉).toNat := by
    intro item h3
    have h0 : ¬ item.repetitions = 0 := by omega
    have h1 : ¬ item.repetitions = 1 := by omega
    have h2 : ¬ item.repetitions = 2 := by omega
    simp [Item.interval, h0, h1, h2]
  constructor
  · intro item
    refine ⟨?_, ?_, ?_, harm item, ?_⟩
    · intro h; simp [Item.interval, h]
    · intro h; simp [Item.interval, h]
    · intro h; simp [Item.interval, h]
    · intro h3 hef
      rw [harm item h3]
      have hnn : (0 : ℤ) ≤ ⌈(6 : ℚ) * item.efactor ^ (item.repetitions - 2)⌉ :=
        Int.ceil_nonneg (by positivity)
      exact_mod_cast Int.toNat_of_nonneg hnn
  · have hceil : ⌈(6 : ℚ) * (3.9 : ℚ) ^ ((5 : ℕ) - 2)⌉ = 356 := by
      apply ceil_eq_of_bounds <;> norm_num
    rw [harm (Item.fromParts 5 3.9) (by decide)]
    simp only [Item.fromParts] at hceil ⊢
    rw [hceil]
    rfl

/-- Witness for C4 (amended) at `Item::from(3, 2.0)`: the ≥ 3 arm and its
ceiling form both apply. -/
theorem interval_formula_witness :
    (Item.fromParts 3 2).interval
        = (⌈(6 : ℚ) * (Item.fromParts 3 2).efactor ^ ((Item.fromParts 3 2).repetitions - 2)⌉).toNat ∧
    ((Item.fromParts 3 2).interval : ℤ)
        = ⌈(6 : ℚ) * (Item.fromParts 3 2).efactor ^ ((Item.fromParts 3 2).repetitions - 2)⌉ :=
  ⟨((interval_formula.1 (Item.fromParts 3 2)).2.2.2.1) (by decide),
   ((interval_formula.1 (Item.fromParts 3 2)).2.2.2.2) (by decide) (by norm_num [Item.fromParts])⟩

/-- C5: starting from `Item::new()` and reviewing with qualities 4, 3, 5 in
order, the repetition count progresses 1, 2, 3 and the final interval is 15. -/
theorem doc_example_scenario :
    (Item.new.answer Quality.four).repetitions = 1 ∧
    ((Item.new.answer Quality.four).answer Quality.three).repetitions = 2 ∧
    (((Item.new.answer Quality.four).answer Quality.three).answer Quality.five).repetitions = 3 ∧
    (((Item.new.answer Quality.four).answer Quality.three).answer Quality.five).interval = 15 := by
  have r1 : Item.new_repetitions 0 Quality.four = 1 := by decide
  have r2 : Item.new_repetitions 1 Quality.three = 2 := by decide
  have r3 : Item.new_repetitions 2 Quality.five = 3 := by decide
  have e1 : Item.new_efactor 2.5 Quality.four = 2.5 := by
    rw [new_efactor_eval 2.5 Quality.four (by norm_num)]
    norm_num [Quality.toF]
  have e2 : Item.new_efactor 2.5 Quality.three = 2.36 := by
    rw [new_efactor_eval 2.5 Quality.three (by norm_num)]
    norm_num [Quality.toF]
  have e3 : Item.new_efactor 2.36 Quality.five = 2.46 := by
    rw [new_efactor_eval 2.36 Quality.five (by norm_num)]
    norm_num [Quality.toF]
  have h1 : Item.new.answer Quality.four = ⟨1, 2.5⟩ := by
    show Item.mk (Item.new_repetitions 0 Quality.four) (Item.new_efactor 2.5 Quality.four)
        = ⟨1, 2.5⟩
    rw [r1, e1]
  have h2 : (Item.mk 1 2.5).answer Quality.three = ⟨2, 2.36⟩ := by
    show Item.mk (Item.new_repetitions 1 Quality.three) (Item.new_efactor 2.5 Quality.three)
        = ⟨2, 2.36⟩
    rw [r2, e2]
  have h3 : (Item.mk 2 2.36).answer Quality.five = ⟨3, 2.46⟩ := by
    show Item.mk (Item.new_repetitions 2 Quality.five) (Item.new_efactor 2.36 Quality.five)
        = ⟨3, 2.46⟩
    rw [r3, e3]
  have hceil : ⌈(6 : ℚ) * (2.46 : ℚ) ^ ((3 : ℕ) - 2)⌉ = 15 := by
    apply ceil_eq_of_bounds <;> norm_num
  have hstep : (Item.mk 3 2.46).interval
      = (⌈(6 : ℚ) * (2.46 : ℚ) ^ ((3 : ℕ) - 2)⌉).toNat := rfl
  rw [h1, h2, h3]
  refine ⟨rfl, rfl, rfl, ?_⟩
  rw [hstep, hceil]
  rfl

/-- C6: `Quality::from(q)` succeeds with the variant of rank `q` for every
`q ≤ 5`, and fails for every `q > 5` with the error carrying the rejected
value; there is no other failure mode (the function is total and pure). -/
theorem quality_from_domain (q : Nat) :
    (q ≤ 5 → ∃ qual : Quality, Quality.fromNat q = Except.ok qual ∧ qual.toRank = q) ∧
    (5 < q → Quality.fromNat q = Except.error (Error.qualityAboveFiveError q)) := by
  constructor
  · intro h
    interval_cases q
    · exact ⟨.zero, rfl, rfl⟩
    · exact ⟨.one, rfl, rfl⟩
    · exact ⟨.two, rfl, rfl⟩
    · exact ⟨.three, rfl, rfl⟩
    · exact ⟨.four, rfl, rfl⟩
    · exact ⟨.five, rfl, rfl⟩
  · intro h
    obtain ⟨n, rfl⟩ : ∃ n, q = n + 6 := ⟨q - 6, by omega⟩
    rfl

/-- Witness for C6 at the concrete probes 3 (accepted), 6 and 255 (both
rejected, each error carrying its own input). -/
theorem quality_from_domain_witness :
    (∃ qual : Quality, Quality.fromNat 3 = Except.ok qual ∧ qual.toRank = 3) ∧
    Quality.fromNat 6 = Except.error (Error.qualityAboveFiveError 6) ∧
    Quality.fromNat 255 = Except.error (Error.qualityAboveFiveError 255) :=
  ⟨(quality_from_domain 3).1 (by decide),
   (quality_from_domain 6).2 (by decide),
   (quality_from_domain 255).2 (by decide)⟩

/-- C7: the default constructor yields repetitions 0 and easiness factor
2.5, and the interval of that fresh item is 0. -/
theorem default_item_state :
    Item.new.repetitions = 0 ∧ Item.new.efactor = 2.5 ∧ Item.new.interval = 0 := by
  refine ⟨rfl, rfl, ?_⟩
  simp [Item.interval, Item.new]

/-- C8: for every item and quality, the in-place update `answer_mut` leaves
the item in exactly the state returned by the immutable `answer` on the
pre-state — the two update forms compute identical results. -/
theorem answer_mut_agrees_with_answer (item : Item) (q : Quality) :
    item.answer_mut q = item.answer q :=
  rfl

/-- C9: the accessors return the stored repetition count and the stored
easiness factor unchanged; in particular a stored easiness factor of 0.5 is
reported as 0.5, without the 1.3 floor. -/
theorem accessors_return_stored_values :
    (∀ item : Item, item.repetitionsAcc = item.repetitions) ∧
    (∀ item : Item, item.easinessFactor = item.efactor) ∧
    (Item.fromParts 0 0.5).easinessFactor = 0.5 :=
  ⟨fun _ => rfl, fun _ => rfl, rfl⟩

/-- C10: the `PartialEq::eq` implementation for `Quality` never returns a
value — for every fuel bound and every pair of qualities, the fuel-indexed
run of the recursion produces no result, so the comparison does not
terminate (in particular it cannot return `true` on equal variants). -/
theorem quality_eq_never_terminates :
    ∀ (fuel : Nat) (a b : Quality), Quality.eqFuel fuel a b = none := by
  intro fuel
  induction fuel with
  | zero => intro a b; rfl
  | succ n ih => intro a b; exact ih a b

end SM2
